import Mathlib

/-
  Verification development for the UV-Network-coverage-based-on-NLOS repository.

  The definitions below are a shallow embedding, over the real numbers, of the
  Python source under src/: the channel model in
  models/channel/communication_distance.py, the coverage model in
  models/network/effective_coverage.py, the statistics and adjacency model in
  utils/statistics.py and models/connectivity/adjacent_nodes.py, the
  m-connectivity model in models/connectivity/m_connectivity.py, the power
  optimizer in optimization/power_optimizer.py and the robustness analyzer in
  models/connectivity/network_robustness.py.  Unbounded Python while-loops are
  embedded as fuel-indexed recursions returning none when the fuel runs out,
  so termination of a concrete run is a provable statement.
-/

open Real

namespace UVNet

/-- Planck constant h in J·s, from config/physical_constants.py. -/
def PLANCK_CONSTANT : ℝ := 6.62607015e-34

/-- Speed of light c in m/s, from config/physical_constants.py. -/
def SPEED_OF_LIGHT : ℝ := 2.99792458e8

/-- UV wavelength λ = 265 nm, from config/physical_constants.py. -/
def WAVELENGTH : ℝ := 265e-9

/-- Quantum efficiency η = 0.15, from config/physical_constants.py. -/
def QUANTUM_EFFICIENCY : ℝ := 0.15

/-- Target error probability Pe = 1e-6, from config/physical_constants.py. -/
def ERROR_PROBABILITY : ℝ := 1e-6

/-- Minimum transmission power (W), CommunicationParams.PT_MIN. -/
def PT_MIN : ℝ := 0.1

/-- Maximum transmission power (W), CommunicationParams.PT_MAX. -/
def PT_MAX : ℝ := 0.5

/-- numpy radians: convert degrees to radians. -/
noncomputable def radians (d : ℝ) : ℝ := d * π / 180

/-- numpy clip of a scalar x to the closed interval from lo to hi. -/
noncomputable def clip (x lo hi : ℝ) : ℝ := min (max x lo) hi

/-- CommunicationDistanceCalculator._calculate_alpha: path-loss exponent,
base 3.0 scaled by the angle factor and clipped to the interval 2.5 .. 4.0. -/
noncomputable def calculateAlpha (theta1 theta2 : ℝ) : ℝ :=
  let theta1_rad := radians theta1
  let theta2_rad := radians theta2
  let angle_factor := (theta1_rad + theta2_rad) / (2 * radians 45)
  clip (3.0 * (0.9 + 0.2 * angle_factor)) 2.5 4.0

/-- CommunicationDistanceCalculator._calculate_xi: path-loss factor with the
calibrated base constant 40360.6915, a Rayleigh wavelength factor and a
geometric factor sin θ1 · sin θ2 floored at 0.1. -/
noncomputable def calculateXi (theta1 theta2 : ℝ) : ℝ :=
  let wavelength_nm := WAVELENGTH * 1e9
  let wavelength_factor := (280 / wavelength_nm) ^ (4 : ℕ)
  let geometric_factor := max (Real.sin (radians theta1) * Real.sin (radians theta2)) 0.1
  let scattering_coefficient : ℝ := 1.0
  40360.6915 * wavelength_factor * scattering_coefficient / geometric_factor

/-- CommunicationDistanceCalculator.calculate_ook_distance, Equation 1:
l_OOK = [−ηλPt / (hcξRd · ln(2Pe))]^(1/α). -/
noncomputable def calculateOokDistance (Pt Rd theta1 theta2 : ℝ) : ℝ :=
  let alpha := calculateAlpha theta1 theta2
  let xi := calculateXi theta1 theta2
  let ln_2Pe := Real.log (2 * ERROR_PROBABILITY)
  let numerator := -QUANTUM_EFFICIENCY * WAVELENGTH * Pt
  let denominator := PLANCK_CONSTANT * SPEED_OF_LIGHT * xi * Rd * ln_2Pe
  (numerator / denominator) ^ ((1.0 : ℝ) / alpha)

/-- While-loop of CommunicationDistanceCalculator.find_required_power, embedded
with explicit fuel.  The loop keeps bisecting the power bracket while its width
exceeds the hard-coded constant 0.001 and finally returns the midpoint of the
bracket; none signals that the fuel ran out before the guard became false. -/
noncomputable def findRequiredPowerLoop (Rd theta1 theta2 target_distance : ℝ) :
    ℕ → ℝ → ℝ → Option ℝ
  | 0, Pt_min, Pt_max =>
      if 0.001 < Pt_max - Pt_min then none else some ((Pt_min + Pt_max) / 2)
  | fuel + 1, Pt_min, Pt_max =>
      if 0.001 < Pt_max - Pt_min then
        let Pt_mid := (Pt_min + Pt_max) / 2
        if calculateOokDistance Pt_mid Rd theta1 theta2 < target_distance then
          findRequiredPowerLoop Rd theta1 theta2 target_distance fuel Pt_mid Pt_max
        else
          findRequiredPowerLoop Rd theta1 theta2 target_distance fuel Pt_min Pt_mid
      else some ((Pt_min + Pt_max) / 2)

/-- CommunicationDistanceCalculator.find_required_power.  The tolerance
argument is accepted, exactly as in the source, but the loop guard compares
the bracket width against the literal 0.001 and never reads the parameter. -/
noncomputable def findRequiredPower (target_distance Rd theta1 theta2 : ℝ)
    (Pt_min Pt_max tolerance : ℝ) (fuel : ℕ) : Option ℝ :=
  findRequiredPowerLoop Rd theta1 theta2 target_distance fuel Pt_min Pt_max

/-- EffectiveCoverageCalculator.calculate_S1, Equation 14: S1 = l² − (1/4)πl². -/
noncomputable def calculate_S1 (l : ℝ) : ℝ := l ^ 2 - 0.25 * π * l ^ 2

/-- EffectiveCoverageCalculator.calculate_S2, Equation 12:
S2 = (1 − π/6 − √3/4)·l². -/
noncomputable def calculate_S2 (l : ℝ) : ℝ := (1 - π / 6 - Real.sqrt 3 / 4) * l ^ 2

/-- EffectiveCoverageCalculator.calculate_single_node_effective_coverage,
Equation 17: S_eff = (1/2)πl² + (S1 − S2). -/
noncomputable def calculateSingleNodeEffectiveCoverage (l : ℝ) : ℝ :=
  let S_PQCB := 0.5 * π * l ^ 2
  S_PQCB + (calculate_S1 l - calculate_S2 l)

/-- EffectiveCoverageCalculator.calculate_minimum_nodes, Equation 29:
n_min = ⌈S_ROI / S_eff⌉, returned as an integer. -/
noncomputable def calculateMinimumNodes (S_ROI l : ℝ) : ℤ :=
  ⌈S_ROI / calculateSingleNodeEffectiveCoverage l⌉

/-- StatisticsUtils.binomial_pmf: C(n,k)·p^k·(1−p)^(n−k), with the guard that
out-of-range k yields 0.  The k < 0 guard of the source is vacuous here since
k is a natural number, and the ValueError branch for p outside the unit
interval is unreachable from the modeled call sites, where p is produced by
min(·, 1) applied to a nonnegative quantity. -/
noncomputable def binomialPmf (n k : ℕ) (p : ℝ) : ℝ :=
  if n < k then 0 else (n.choose k : ℝ) * p ^ k * (1 - p) ^ (n - k)

/-- StatisticsUtils.probability_at_least_m_adjacent, Equation 24:
0 when m ≥ n, 1 when m ≤ 0, otherwise 1 − Σ_{s<m} pmf(n−1, s, p).
The branch order mirrors the source (the m ≥ n test comes first). -/
noncomputable def probabilityAtLeastM (n : ℕ) (m : ℤ) (p : ℝ) : ℝ :=
  if (n : ℤ) ≤ m then 0
  else if m ≤ 0 then 1
  else 1 - ∑ s in Finset.range m.toNat, binomialPmf (n - 1) s p

/-- numpy arctan2 y x.  Only the x > 0 branch is exercised by the grid
sampling, which uses strictly positive interior coordinates. -/
noncomputable def arctan2 (y x : ℝ) : ℝ :=
  if 0 < x then Real.arctan (y / x)
  else if x < 0 then
    (if 0 ≤ y then Real.arctan (y / x) + π else Real.arctan (y / x) - π)
  else (if 0 < y then π / 2 else if y < 0 then -(π / 2) else 0)

/-- AdjacentNodesCalculator.calculate_adjacent_probability_simple: converts
the polar position back to Cartesian, takes the distance to the nearest
boundary of the square region of the given area, and returns the clamped
density × coverage product, with the boundary factor max(0.5, dist/l) applied
when the coverage circle is truncated. -/
noncomputable def calculateAdjacentProbabilitySimple (tx phi_x l : ℝ) (n : ℕ)
    (area : ℝ) : ℝ :=
  let x := tx * Real.cos phi_x
  let y := tx * Real.sin phi_x
  let side := Real.sqrt area
  let dist_to_boundary := min (min x y) (min (side - x) (side - y))
  let density := ((n : ℝ) - 1) / area
  let probability :=
    if l ≤ dist_to_boundary then density * (π * l ^ 2)
    else density * (π * l ^ 2 * max 0.5 (dist_to_boundary / l))
  min probability 1

/-- AdjacentNodesCalculator.probability_at_least_m_adjacent, Equation 24 at a
position: the binomial tail evaluated at the simple adjacency probability. -/
noncomputable def adjacentProbabilityAtLeastM (tx phi_x l : ℝ) (n : ℕ) (m : ℤ)
    (area : ℝ) : ℝ :=
  probabilityAtLeastM n m (calculateAdjacentProbabilitySimple tx phi_x l n area)

/-- Grid size used by MConnectivityCalculator.calculate_Q_n_m:
int(np.ceil(np.sqrt(sample_points))). -/
noncomputable def gridSize (sample_points : ℕ) : ℕ := ⌈Real.sqrt sample_points⌉₊

/-- MConnectivityCalculator.calculate_Q_n_m, Equation 25: average of the
at-least-m adjacency probability over an interior grid of
gridSize × gridSize sample positions of the square region. -/
noncomputable def calculateQnm (l : ℝ) (n : ℕ) (m : ℤ) (area : ℝ)
    (sample_points : ℕ) : ℝ :=
  let side := Real.sqrt area
  let g := gridSize sample_points
  let spacing := side / ((g : ℝ) + 1)
  (∑ i in Finset.Icc 1 g, ∑ j in Finset.Icc 1 g,
      adjacentProbabilityAtLeastM
        (Real.sqrt (((i : ℝ) * spacing) ^ 2 + ((j : ℝ) * spacing) ^ 2))
        (arctan2 ((j : ℝ) * spacing) ((i : ℝ) * spacing)) l n m area) /
    ((g : ℝ) * (g : ℝ))

/-- MConnectivityCalculator.calculate_network_connectivity_probability,
Equation 27: P(C is m-connected) ≈ (Q_n,≥m)^n. -/
noncomputable def networkConnectivityProbability (l : ℝ) (n : ℕ) (m : ℤ)
    (area : ℝ) (sample_points : ℕ) : ℝ :=
  calculateQnm l n m area sample_points ^ n

/-- Result record of MConnectivityCalculator.find_required_nodes. -/
structure NodeSearchResult where
  required_nodes : ℕ
  communication_distance : ℝ
  connectivity_level : ℤ
  target_probability : ℝ
  achieved_probability : ℝ
  area : ℝ

/-- While-loop of MConnectivityCalculator.find_required_nodes, embedded with
explicit fuel: integer bisection of the node-count bracket while its width
exceeds the tolerance, returning the final n_max. -/
noncomputable def findRequiredNodesLoop (f : ℕ → ℝ) (target : ℝ) (tol : ℕ) :
    ℕ → ℕ → ℕ → Option ℕ
  | 0, n_min, n_max => if tol < n_max - n_min then none else some n_max
  | fuel + 1, n_min, n_max =>
      if tol < n_max - n_min then
        let n_mid := (n_min + n_max) / 2
        if f n_mid < target then findRequiredNodesLoop f target tol fuel n_mid n_max
        else findRequiredNodesLoop f target tol fuel n_min n_mid
      else some n_max

/-- MConnectivityCalculator.find_required_nodes: bisection over the node
count against the network connectivity probability, reporting the achieved
probability at the returned node count. -/
noncomputable def findRequiredNodes (l area : ℝ) (m : ℤ) (target : ℝ)
    (n_min n_max tol fuel : ℕ) : Option NodeSearchResult :=
  (findRequiredNodesLoop (fun k => networkConnectivityProbability l k m area 20)
      target tol fuel n_min n_max).map
    (fun nr =>
      ⟨nr, l, m, target, networkConnectivityProbability l nr m area 20, area⟩)

/-- Result record of PowerOptimizer.find_minimum_power_for_distance.  The
message field is some explanatory text exactly when the source dict carries a
message key (the infeasible branch). -/
structure PowerSearchResult where
  feasible : Bool
  required_power : ℝ
  achieved_distance : ℝ
  target_distance : ℝ
  message : Option String

/-- While-loop of PowerOptimizer.find_minimum_power_for_distance, embedded
with explicit fuel: bisection of the power bracket with tolerance 0.01,
returning the final upper end Pt_high. -/
noncomputable def findMinimumPowerLoop (target_distance Rd theta1 theta2 : ℝ) :
    ℕ → ℝ → ℝ → Option ℝ
  | 0, lo, hi => if 0.01 < hi - lo then none else some hi
  | fuel + 1, lo, hi =>
      if 0.01 < hi - lo then
        let mid := (lo + hi) / 2
        if calculateOokDistance mid Rd theta1 theta2 < target_distance then
          findMinimumPowerLoop target_distance Rd theta1 theta2 fuel mid hi
        else findMinimumPowerLoop target_distance Rd theta1 theta2 fuel lo mid
      else some hi

/-- PowerOptimizer.find_minimum_power_for_distance: if the target is not
reachable even at PT_MAX, return a feasible = false record carrying the
distance achieved at maximum power and an explanatory message; otherwise run
the bisection inside the engineering bracket and return a feasible record. -/
noncomputable def findMinimumPowerForDistance (target_distance Rd theta1 theta2 : ℝ)
    (fuel : ℕ) : Option PowerSearchResult :=
  let max_distance := calculateOokDistance PT_MAX Rd theta1 theta2
  if max_distance < target_distance then
    some ⟨false, PT_MAX, max_distance, target_distance,
      some "Target not achievable with max power"⟩
  else
    (findMinimumPowerLoop target_distance Rd theta1 theta2 fuel PT_MIN PT_MAX).map
      (fun p => ⟨true, p, calculateOokDistance p Rd theta1 theta2, target_distance, none⟩)

/-- ProbabilityDensityFunction.calculate_expected_neighbors:
(n−1)/area · π·l². -/
noncomputable def calculateExpectedNeighbors (n : ℕ) (area l : ℝ) : ℝ :=
  ((n : ℝ) - 1) / area * (π * l ^ 2)

/-- ProbabilityDensityFunction.calculate_isolation_probability: Poisson
zero-neighbor probability exp(−expected neighbors). -/
noncomputable def calculateIsolationProbability (n : ℕ) (area l : ℝ) : ℝ :=
  Real.exp (-(calculateExpectedNeighbors n area l))

/-- Result record of NetworkRobustnessAnalyzer.evaluate_robustness. -/
structure RobustnessReport where
  score : ℝ
  level : String
  conn_1 : ℝ
  conn_2 : ℝ
  conn_3 : ℝ
  expected_neighbors : ℝ
  isolation_probability : ℝ

/-- NetworkRobustnessAnalyzer.evaluate_robustness: the weighted score on the
0-100 scale and the threshold-based qualitative level. -/
noncomputable def evaluateRobustness (l : ℝ) (n : ℕ) (area : ℝ) : RobustnessReport :=
  let conn_1 := networkConnectivityProbability l n 1 area 20
  let conn_2 := networkConnectivityProbability l n 2 area 20
  let conn_3 := networkConnectivityProbability l n 3 area 20
  let expected_neighbors := calculateExpectedNeighbors n area l
  let prob_isolated := calculateIsolationProbability n area l
  let score := conn_1 * 20 + conn_2 * 40 + conn_3 * 20 + (1 - prob_isolated) * 10 +
    min (expected_neighbors / 5) 1.0 * 10
  let level :=
    if 85 ≤ score then "Excellent"
    else if 70 ≤ score then "Good"
    else if 50 ≤ score then "Fair"
    else "Poor"
  ⟨score, level, conn_1, conn_2, conn_3, expected_neighbors, prob_isolated⟩

/-! ### Basic facts about the binomial tail -/

theorem binomialPmf_nonneg {p : ℝ} (h0 : 0 ≤ p) (h1 : p ≤ 1) (n k : ℕ) :
    0 ≤ binomialPmf n k p := by
  unfold binomialPmf
  split
  · exact le_refl 0
  · have h1p : (0 : ℝ) ≤ 1 - p := by linarith
    have hc : (0 : ℝ) ≤ (n.choose k : ℝ) := by positivity
    exact mul_nonneg (mul_nonneg hc (pow_nonneg h0 k)) (pow_nonneg h1p (n - k))

theorem sum_binomialPmf_eq_one (n : ℕ) (p : ℝ) :
    ∑ s in Finset.range (n + 1), binomialPmf n s p = 1 := by
  have h := add_pow p (1 - p) n
  have hps : p + (1 - p) = 1 := by ring
  rw [hps, one_pow] at h
  calc ∑ s in Finset.range (n + 1), binomialPmf n s p
      = ∑ s in Finset.range (n + 1), p ^ s * (1 - p) ^ (n - s) * (n.choose s : ℝ) := by
        apply Finset.sum_congr rfl
        intro s hs
        have hsn : s ≤ n := Nat.lt_succ_iff.mp (Finset.mem_range.mp hs)
        unfold binomialPmf
        rw [if_neg (by omega)]
        ring
    _ = 1 := h.symm

theorem sum_binomialPmf_le_one {p : ℝ} (h0 : 0 ≤ p) (h1 : p ≤ 1) (n k : ℕ) :
    ∑ s in Finset.range k, binomialPmf n s p ≤ 1 := by
  have hsub : Finset.range k ⊆ Finset.range (max k (n + 1)) :=
    Finset.range_subset.mpr (le_max_left _ _)
  have h2 : ∑ s in Finset.range k, binomialPmf n s p ≤
      ∑ s in Finset.range (max k (n + 1)), binomialPmf n s p := by
    apply Finset.sum_le_sum_of_subset_of_nonneg hsub
    intro s _ _
    exact binomialPmf_nonneg h0 h1 n s
  have h3 : ∑ s in Finset.range (max k (n + 1)), binomialPmf n s p =
      ∑ s in Finset.range (n + 1), binomialPmf n s p := by
    symm
    apply Finset.sum_subset (Finset.range_subset.mpr (le_max_right _ _))
    intro s _ hs
    have : n < s := by
      have := Finset.mem_range.not.mp hs
      omega
    unfold binomialPmf
    rw [if_pos this]
  rw [h3, sum_binomialPmf_eq_one] at h2
  exact h2

theorem sum_binomialPmf_nonneg {p : ℝ} (h0 : 0 ≤ p) (h1 : p ≤ 1) (n k : ℕ) :
    0 ≤ ∑ s in Finset.range k, binomialPmf n s p :=
  Finset.sum_nonneg fun s _ => binomialPmf_nonneg h0 h1 n s

theorem probabilityAtLeastM_nonneg {p : ℝ} (h0 : 0 ≤ p) (h1 : p ≤ 1) (n : ℕ) (m : ℤ) :
    0 ≤ probabilityAtLeastM n m p := by
  unfold probabilityAtLeastM
  split
  · exact le_refl 0
  · split
    · exact zero_le_one
    · have := sum_binomialPmf_le_one h0 h1 (n - 1) m.toNat
      linarith

theorem probabilityAtLeastM_le_one {p : ℝ} (h0 : 0 ≤ p) (h1 : p ≤ 1) (n : ℕ) (m : ℤ) :
    probabilityAtLeastM n m p ≤ 1 := by
  unfold probabilityAtLeastM
  split
  · exact zero_le_one
  · split
    · exact le_refl 1
    · have := sum_binomialPmf_nonneg h0 h1 (n - 1) m.toNat
      linarith

theorem probabilityAtLeastM_anti {p : ℝ} (h0 : 0 ≤ p) (h1 : p ≤ 1) (n : ℕ)
    {m1 m2 : ℤ} (hm : m1 ≤ m2) :
    probabilityAtLeastM n m2 p ≤ probabilityAtLeastM n m1 p := by
  by_cases hn2 : (n : ℤ) ≤ m2
  · have e2 : probabilityAtLeastM n m2 p = 0 := by
      unfold probabilityAtLeastM
      rw [if_pos hn2]
    rw [e2]
    exact probabilityAtLeastM_nonneg h0 h1 n m1
  · have hn1 : ¬ (n : ℤ) ≤ m1 := fun h => hn2 (le_trans h hm)
    by_cases hz2 : m2 ≤ 0
    · have hz1 : m1 ≤ 0 := le_trans hm hz2
      have e1 : probabilityAtLeastM n m1 p = 1 := by
        unfold probabilityAtLeastM
        rw [if_neg hn1, if_pos hz1]
      have e2 : probabilityAtLeastM n m2 p = 1 := by
        unfold probabilityAtLeastM
        rw [if_neg hn2, if_pos hz2]
      rw [e1, e2]
    · by_cases hz1 : m1 ≤ 0
      · have e1 : probabilityAtLeastM n m1 p = 1 := by
          unfold probabilityAtLeastM
          rw [if_neg hn1, if_pos hz1]
        rw [e1]
        exact probabilityAtLeastM_le_one h0 h1 n m2
      · have e1 : probabilityAtLeastM n m1 p =
            1 - ∑ s in Finset.range m1.toNat, binomialPmf (n - 1) s p := by
          unfold probabilityAtLeastM
          rw [if_neg hn1, if_neg hz1]
        have e2 : probabilityAtLeastM n m2 p =
            1 - ∑ s in Finset.range m2.toNat, binomialPmf (n - 1) s p := by
          unfold probabilityAtLeastM
          rw [if_neg hn2, if_neg hz2]
        rw [e1, e2]
        have hsub : Finset.range m1.toNat ⊆ Finset.range m2.toNat :=
          Finset.range_subset.mpr (by omega)
        have hs : ∑ s in Finset.range m1.toNat, binomialPmf (n - 1) s p ≤
            ∑ s in Finset.range m2.toNat, binomialPmf (n - 1) s p := by
          apply Finset.sum_le_sum_of_subset_of_nonneg hsub
          intro s _ _
          exact binomialPmf_nonneg h0 h1 (n - 1) s
        linarith

/-! ### The simple adjacency probability is a probability -/

theorem calculateAdjacentProbabilitySimple_mem (tx phi_x l : ℝ) {n : ℕ}
    (hn : 1 ≤ n) {area : ℝ} (ha : 0 < area) :
    0 ≤ calculateAdjacentProbabilitySimple tx phi_x l n area ∧
      calculateAdjacentProbabilitySimple tx phi_x l n area ≤ 1 := by
  unfold calculateAdjacentProbabilitySimple
  constructor
  · apply le_min _ zero_le_one
    have hd : 0 ≤ ((n : ℝ) - 1) / area := by
      apply div_nonneg _ ha.le
      have : (1 : ℝ) ≤ (n : ℝ) := by exact_mod_cast hn
      linarith
    split
    · positivity
    · have hb : (0 : ℝ) ≤ max 0.5 (min (min (tx * Real.cos phi_x) (tx * Real.sin phi_x))
          (min (Real.sqrt area - tx * Real.cos phi_x)
            (Real.sqrt area - tx * Real.sin phi_x)) / l) :=
        le_trans (by norm_num) (le_max_left _ _)
      have hc : (0 : ℝ) ≤ π * l ^ 2 := by positivity
      exact mul_nonneg hd (mul_nonneg hc hb)
  · exact min_le_right _ _

/-- Claim C7.  For every position (tx, phi_x), every l > 0, area > 0 and
node count n ≥ 1, the at-least-m adjacency probability of
AdjacentNodesCalculator returns 1 when m ≤ 0, returns 0 when m ≥ n, and its
value always lies in the unit interval. -/
theorem adjacent_probability_edge_cases (tx phi_x l area : ℝ) (n : ℕ) (m : ℤ)
    (hn : 1 ≤ n) (_hl : 0 < l) (ha : 0 < area) :
    (m ≤ 0 → adjacentProbabilityAtLeastM tx phi_x l n m area = 1) ∧
    ((n : ℤ) ≤ m → adjacentProbabilityAtLeastM tx phi_x l n m area = 0) ∧
    0 ≤ adjacentProbabilityAtLeastM tx phi_x l n m area ∧
    adjacentProbabilityAtLeastM tx phi_x l n m area ≤ 1 := by
  obtain ⟨hp0, hp1⟩ := calculateAdjacentProbabilitySimple_mem tx phi_x l hn ha
  refine ⟨?_, ?_, ?_, ?_⟩
  · intro hm
    unfold adjacentProbabilityAtLeastM probabilityAtLeastM
    rw [if_neg (by omega), if_pos hm]
  · intro hm
    unfold adjacentProbabilityAtLeastM probabilityAtLeastM
    rw [if_pos hm]
  · exact probabilityAtLeastM_nonneg hp0 hp1 n m
  · exact probabilityAtLeastM_le_one hp0 hp1 n m

/-- Witness for claim C7 at a concrete input. -/
theorem adjacent_probability_edge_cases_witness :
    ((0 : ℤ) ≤ 0 → adjacentProbabilityAtLeastM 0 0 1 1 0 1 = 1) ∧
    (((1 : ℕ) : ℤ) ≤ 0 → adjacentProbabilityAtLeastM 0 0 1 1 0 1 = 0) ∧
    0 ≤ adjacentProbabilityAtLeastM 0 0 1 1 0 1 ∧
    adjacentProbabilityAtLeastM 0 0 1 1 0 1 ≤ 1 :=
  adjacent_probability_edge_cases 0 0 1 1 1 0 (le_refl 1) one_pos one_pos

/-- Case analysis of the robustness level thresholds, for an arbitrary score. -/
theorem robustness_level_cases (sc : ℝ) :
    ((if 85 ≤ sc then "Excellent" else if 70 ≤ sc then "Good"
        else if 50 ≤ sc then "Fair" else "Poor") = "Excellent" ↔ 85 ≤ sc) ∧
    ((if 85 ≤ sc then "Excellent" else if 70 ≤ sc then "Good"
        else if 50 ≤ sc then "Fair" else "Poor") = "Good" ↔ 70 ≤ sc ∧ sc < 85) ∧
    ((if 85 ≤ sc then "Excellent" else if 70 ≤ sc then "Good"
        else if 50 ≤ sc then "Fair" else "Poor") = "Fair" ↔ 50 ≤ sc ∧ sc < 70) ∧
    ((if 85 ≤ sc then "Excellent" else if 70 ≤ sc then "Good"
        else if 50 ≤ sc then "Fair" else "Poor") = "Poor" ↔ sc < 50) := by
  split_ifs with h1 h2 h3
  · exact ⟨iff_of_true rfl h1,
      iff_of_false (by decide) (fun h => absurd h.2 (not_lt.mpr h1)),
      iff_of_false (by decide)
        (fun h => absurd h.2 (not_lt.mpr (le_trans (by norm_num) h1))),
      iff_of_false (by decide) (not_lt.mpr (le_trans (by norm_num) h1))⟩
  · exact ⟨iff_of_false (by decide) h1,
      iff_of_true rfl ⟨h2, not_le.mp h1⟩,
      iff_of_false (by decide) (fun h => absurd h.2 (not_lt.mpr h2)),
      iff_of_false (by decide) (not_lt.mpr (le_trans (by norm_num) h2))⟩
  · exact ⟨iff_of_false (by decide) h1,
      iff_of_false (by decide) (fun h => h2 h.1),
      iff_of_true rfl ⟨h3, not_le.mp h2⟩,
      iff_of_false (by decide) (not_lt.mpr h3)⟩
  · exact ⟨iff_of_false (by decide) h1,
      iff_of_false (by decide) (fun h => h2 h.1),
      iff_of_false (by decide) (fun h => h3 h.1),
      iff_of_true rfl (not_le.mp h3)⟩

/-- Claim C9.  The robustness score of evaluate_robustness equals the fixed
weighted sum 20·P(1-conn) + 40·P(2-conn) + 20·P(3-conn) +
10·(1 − isolation) + 10·min(expectedNeighbors/5, 1) on the 0-100 scale, and
the qualitative level is Excellent iff score ≥ 85, Good iff 70 ≤ score < 85,
Fair iff 50 ≤ score < 70, and Poor otherwise. -/
theorem robustness_score_spec (l : ℝ) (n : ℕ) (area : ℝ)
    (_hl : 0 < l) (_hn : 1 ≤ n) (_ha : 0 < area) :
    (evaluateRobustness l n area).score =
      networkConnectivityProbability l n 1 area 20 * 20 +
      networkConnectivityProbability l n 2 area 20 * 40 +
      networkConnectivityProbability l n 3 area 20 * 20 +
      (1 - calculateIsolationProbability n area l) * 10 +
      min (calculateExpectedNeighbors n area l / 5) 1.0 * 10 ∧
    ((evaluateRobustness l n area).level = "Excellent" ↔
      85 ≤ (evaluateRobustness l n area).score) ∧
    ((evaluateRobustness l n area).level = "Good" ↔
      70 ≤ (evaluateRobustness l n area).score ∧ (evaluateRobustness l n area).score < 85) ∧
    ((evaluateRobustness l n area).level = "Fair" ↔
      50 ≤ (evaluateRobustness l n area).score ∧ (evaluateRobustness l n area).score < 70) ∧
    ((evaluateRobustness l n area).level = "Poor" ↔
      (evaluateRobustness l n area).score < 50) := by
  have hlevel : (evaluateRobustness l n area).level =
      (if 85 ≤ (evaluateRobustness l n area).score then "Excellent"
        else if 70 ≤ (evaluateRobustness l n area).score then "Good"
        else if 50 ≤ (evaluateRobustness l n area).score then "Fair"
        else "Poor") := rfl
  obtain ⟨e1, e2, e3, e4⟩ := robustness_level_cases ((evaluateRobustness l n area).score)
  refine ⟨rfl, ?_, ?_, ?_, ?_⟩
  · rw [hlevel]; exact e1
  · rw [hlevel]; exact e2
  · rw [hlevel]; exact e3
  · rw [hlevel]; exact e4

/-- Witness for claim C9 at a concrete input. -/
theorem robustness_score_spec_witness :
    (evaluateRobustness 1 1 1).score =
      networkConnectivityProbability 1 1 1 1 20 * 20 +
      networkConnectivityProbability 1 1 2 1 20 * 40 +
      networkConnectivityProbability 1 1 3 1 20 * 20 +
      (1 - calculateIsolationProbability 1 1 1) * 10 +
      min (calculateExpectedNeighbors 1 1 1 / 5) 1.0 * 10 ∧
    ((evaluateRobustness 1 1 1).level = "Excellent" ↔ 85 ≤ (evaluateRobustness 1 1 1).score) ∧
    ((evaluateRobustness 1 1 1).level = "Good" ↔
      70 ≤ (evaluateRobustness 1 1 1).score ∧ (evaluateRobustness 1 1 1).score < 85) ∧
    ((evaluateRobustness 1 1 1).level = "Fair" ↔
      50 ≤ (evaluateRobustness 1 1 1).score ∧ (evaluateRobustness 1 1 1).score < 70) ∧
    ((evaluateRobustness 1 1 1).level = "Poor" ↔ (evaluateRobustness 1 1 1).score < 50) :=
  robustness_score_spec 1 1 1 one_pos (le_refl 1) one_pos

/-- Claim C10.  The result of find_required_power does not depend on the
tolerance argument: any two calls agreeing on every other argument return
the same power, because the loop guard compares the bracket width against
the hard-coded literal 0.001 and never reads the parameter. -/
theorem find_required_power_tolerance_independent
    (target_distance Rd theta1 theta2 Pt_min Pt_max : ℝ)
    (tolerance1 tolerance2 : ℝ) (fuel : ℕ) :
    findRequiredPower target_distance Rd theta1 theta2 Pt_min Pt_max tolerance1 fuel =
      findRequiredPower target_distance Rd theta1 theta2 Pt_min Pt_max tolerance2 fuel :=
  rfl

/-! ### The grid-sampled adjacency average and its ordering in m -/

theorem calculateQnm_nonneg {l area : ℝ} (ha : 0 < area) {n : ℕ} (hn : 1 ≤ n)
    (m : ℤ) (sp : ℕ) : 0 ≤ calculateQnm l n m area sp := by
  unfold calculateQnm
  apply div_nonneg _ (by positivity)
  apply Finset.sum_nonneg
  intro i _
  apply Finset.sum_nonneg
  intro j _
  unfold adjacentProbabilityAtLeastM
  obtain ⟨hp0, hp1⟩ := calculateAdjacentProbabilitySimple_mem _ _ l hn ha
  exact probabilityAtLeastM_nonneg hp0 hp1 n m

theorem calculateQnm_anti {l area : ℝ} (ha : 0 < area) {n : ℕ} (hn : 1 ≤ n)
    {m1 m2 : ℤ} (hm : m1 ≤ m2) (sp : ℕ) :
    calculateQnm l n m2 area sp ≤ calculateQnm l n m1 area sp := by
  unfold calculateQnm
  apply div_le_div_of_nonneg_right _ (by positivity)
  apply Finset.sum_le_sum
  intro i _
  apply Finset.sum_le_sum
  intro j _
  unfold adjacentProbabilityAtLeastM
  obtain ⟨hp0, hp1⟩ := calculateAdjacentProbabilitySimple_mem _ _ l hn ha
  exact probabilityAtLeastM_anti hp0 hp1 n hm

theorem networkConnectivityProbability_anti {l area : ℝ} (ha : 0 < area)
    {n : ℕ} (hn : 1 ≤ n) {m1 m2 : ℤ} (hm : m1 ≤ m2) (sp : ℕ) :
    networkConnectivityProbability l n m2 area sp ≤
      networkConnectivityProbability l n m1 area sp := by
  unfold networkConnectivityProbability
  exact pow_le_pow_left₀ (calculateQnm_nonneg ha hn m2 sp)
    (calculateQnm_anti ha hn hm sp) n

/-- Claim C5, amended part.  For fixed l, n, area and the default sample
count, the network connectivity probability is non-increasing in the
connectivity level m: P(≥1-connected) ≥ P(≥2-connected) ≥ P(≥3-connected). -/
theorem connectivity_ordering_in_m (l area : ℝ) (n : ℕ)
    (_hl : 0 < l) (ha : 0 < area) (hn : 1 ≤ n) :
    networkConnectivityProbability l n 2 area 20 ≤
      networkConnectivityProbability l n 1 area 20 ∧
    networkConnectivityProbability l n 3 area 20 ≤
      networkConnectivityProbability l n 2 area 20 :=
  ⟨networkConnectivityProbability_anti ha hn (by norm_num) 20,
    networkConnectivityProbability_anti ha hn (by norm_num) 20⟩

/-- Witness for the amended claim C5 at a concrete input. -/
theorem connectivity_ordering_in_m_witness :
    networkConnectivityProbability 1 1 2 1 20 ≤
      networkConnectivityProbability 1 1 1 1 20 ∧
    networkConnectivityProbability 1 1 3 1 20 ≤
      networkConnectivityProbability 1 1 2 1 20 :=
  connectivity_ordering_in_m 1 1 1 one_pos one_pos (le_refl 1)

/-! ### Effective coverage: scale-invariant closed form -/

theorem sqrt3_bounds : (1.732050 : ℝ) < Real.sqrt 3 ∧ Real.sqrt 3 < 1.732051 :=
  ⟨by
    rw [show (1.732050 : ℝ) < Real.sqrt 3 ↔ (1.732050 : ℝ) ^ 2 < 3 from
      Real.lt_sqrt (by norm_num)]
    norm_num,
  by
    rw [Real.sqrt_lt' (by norm_num)]
    norm_num⟩

theorem calculateSingleNodeEffectiveCoverage_eq (l : ℝ) :
    calculateSingleNodeEffectiveCoverage l = (5 * π / 12 + Real.sqrt 3 / 4) * l ^ 2 := by
  unfold calculateSingleNodeEffectiveCoverage calculate_S1 calculate_S2
  ring

theorem calculateSingleNodeEffectiveCoverage_pos {l : ℝ} (hl : 0 < l) :
    0 < calculateSingleNodeEffectiveCoverage l := by
  rw [calculateSingleNodeEffectiveCoverage_eq]
  have hk : (0 : ℝ) < 5 * π / 12 + Real.sqrt 3 / 4 := by positivity
  exact mul_pos hk (pow_pos hl 2)

theorem coverage_ratio_eq (l : ℝ) (hl : 0 < l) :
    calculateSingleNodeEffectiveCoverage l / (π * l ^ 2) =
      5 / 12 + Real.sqrt 3 / (4 * π) := by
  rw [calculateSingleNodeEffectiveCoverage_eq]
  have hl0 : l ≠ 0 := hl.ne'
  field_simp
  ring

/-- Claim C2.  For every l > 0, the single-node effective coverage divided by
the raw circular coverage π·l² is within 0.001 of 0.5545, the ratio is the
same for every l > 0 exactly (scale invariance), and the effective coverage
is strictly below π·l². -/
theorem single_node_coverage_efficiency (l : ℝ) (hl : 0 < l) :
    |calculateSingleNodeEffectiveCoverage l / (π * l ^ 2) - 0.5545| < 0.001 ∧
    (∀ l2 : ℝ, 0 < l2 → calculateSingleNodeEffectiveCoverage l / (π * l ^ 2) =
      calculateSingleNodeEffectiveCoverage l2 / (π * l2 ^ 2)) ∧
    calculateSingleNodeEffectiveCoverage l < π * l ^ 2 := by
  obtain ⟨h3lo, h3hi⟩ := sqrt3_bounds
  have hpilo := Real.pi_gt_d6
  have hpihi := Real.pi_lt_d6
  have h4pi : (0 : ℝ) < 4 * π := by positivity
  refine ⟨?_, ?_, ?_⟩
  · have hr := coverage_ratio_eq l hl
    rw [hr, abs_sub_lt_iff]
    have hub : Real.sqrt 3 / (4 * π) < 0.1387 := by
      rw [div_lt_iff₀ h4pi]
      nlinarith
    have hlb : (0.1369 : ℝ) < Real.sqrt 3 / (4 * π) := by
      rw [lt_div_iff₀ h4pi]
      nlinarith
    constructor <;> linarith
  · intro l2 hl2
    rw [coverage_ratio_eq l hl, coverage_ratio_eq l2 hl2]
  · rw [calculateSingleNodeEffectiveCoverage_eq]
    have hk : 5 * π / 12 + Real.sqrt 3 / 4 < π := by linarith
    exact mul_lt_mul_of_pos_right hk (pow_pos hl 2)

/-- Witness for claim C2 at a concrete input. -/
theorem single_node_coverage_efficiency_witness :
    |calculateSingleNodeEffectiveCoverage 1 / (π * 1 ^ 2) - 0.5545| < 0.001 ∧
    (∀ l2 : ℝ, 0 < l2 → calculateSingleNodeEffectiveCoverage 1 / (π * 1 ^ 2) =
      calculateSingleNodeEffectiveCoverage l2 / (π * l2 ^ 2)) ∧
    calculateSingleNodeEffectiveCoverage 1 < π * 1 ^ 2 :=
  single_node_coverage_efficiency 1 one_pos

/-! ### Minimum node counts -/

theorem minimumNodes_mul_ge (S : ℝ) {l : ℝ} (hl : 0 < l) :
    S ≤ (calculateMinimumNodes S l : ℝ) * calculateSingleNodeEffectiveCoverage l := by
  have hpos := calculateSingleNodeEffectiveCoverage_pos hl
  have h := Int.le_ceil (S / calculateSingleNodeEffectiveCoverage l)
  calc S = S / calculateSingleNodeEffectiveCoverage l *
        calculateSingleNodeEffectiveCoverage l := by field_simp
    _ ≤ (calculateMinimumNodes S l : ℝ) * calculateSingleNodeEffectiveCoverage l :=
        mul_le_mul_of_nonneg_right h hpos.le

theorem minimumNodes_anti {S : ℝ} (hS : 0 ≤ S) {l1 l2 : ℝ} (h1 : 0 < l1)
    (h12 : l1 ≤ l2) : calculateMinimumNodes S l2 ≤ calculateMinimumNodes S l1 := by
  apply Int.ceil_le_ceil
  apply div_le_div_of_nonneg_left hS (calculateSingleNodeEffectiveCoverage_pos h1)
  rw [calculateSingleNodeEffectiveCoverage_eq, calculateSingleNodeEffectiveCoverage_eq]
  have hk : (0 : ℝ) ≤ 5 * π / 12 + Real.sqrt 3 / 4 := by positivity
  exact mul_le_mul_of_nonneg_left (pow_le_pow_left₀ h1.le h12 2) hk

/-- Claim C6.  calculate_minimum_nodes is the ceiling of regionArea divided
by the single-node effective coverage; for regionArea = 1e6 the counts at
l = 50, 75, 100, 150 are non-increasing in l, and each count n satisfies
n · singleNodeEffectiveCoverage(l) ≥ regionArea. -/
theorem minimum_nodes_spec :
    (∀ S_ROI l : ℝ, calculateMinimumNodes S_ROI l =
        ⌈S_ROI / calculateSingleNodeEffectiveCoverage l⌉) ∧
    (calculateMinimumNodes 1000000 150 ≤ calculateMinimumNodes 1000000 100 ∧
      calculateMinimumNodes 1000000 100 ≤ calculateMinimumNodes 1000000 75 ∧
      calculateMinimumNodes 1000000 75 ≤ calculateMinimumNodes 1000000 50) ∧
    (1000000 ≤ (calculateMinimumNodes 1000000 50 : ℝ) *
        calculateSingleNodeEffectiveCoverage 50 ∧
      1000000 ≤ (calculateMinimumNodes 1000000 75 : ℝ) *
        calculateSingleNodeEffectiveCoverage 75 ∧
      1000000 ≤ (calculateMinimumNodes 1000000 100 : ℝ) *
        calculateSingleNodeEffectiveCoverage 100 ∧
      1000000 ≤ (calculateMinimumNodes 1000000 150 : ℝ) *
        calculateSingleNodeEffectiveCoverage 150) :=
  ⟨fun _ _ => rfl,
    ⟨minimumNodes_anti (by norm_num) (by norm_num) (by norm_num),
      minimumNodes_anti (by norm_num) (by norm_num) (by norm_num),
      minimumNodes_anti (by norm_num) (by norm_num) (by norm_num)⟩,
    ⟨minimumNodes_mul_ge 1000000 (by norm_num),
      minimumNodes_mul_ge 1000000 (by norm_num),
      minimumNodes_mul_ge 1000000 (by norm_num),
      minimumNodes_mul_ge 1000000 (by norm_num)⟩⟩

/-! ### Reference calibration of the channel model at θ1 = 30°, θ2 = 50° -/

theorem calculateAlpha_30_50 : calculateAlpha 30 50 = 97 / 30 := by
  unfold calculateAlpha radians clip
  dsimp only
  have hpi := Real.pi_ne_zero
  have h : ((30 : ℝ) * π / 180 + 50 * π / 180) / (2 * (45 * π / 180)) = 8 / 9 := by
    field_simp
    ring
  rw [h]
  have h2 : (3.0 : ℝ) * (0.9 + 0.2 * (8 / 9)) = 97 / 30 := by norm_num
  rw [h2, max_eq_left (by norm_num), min_eq_left (by norm_num)]

theorem sin_pi_div_nine_bounds :
    (0.3412 : ℝ) < Real.sin (π / 9) ∧ Real.sin (π / 9) < 0.34276 := by
  have hlo : (0.3490657 : ℝ) < π / 9 := by linarith [Real.pi_gt_d6]
  have hhi : π / 9 < 0.3490659 := by linarith [Real.pi_lt_d6]
  have hx0 : (0 : ℝ) < π / 9 := by positivity
  have hx1 : |π / 9| ≤ 1 := by
    rw [abs_of_pos hx0]
    linarith
  have hb := Real.sin_bound hx1
  rw [abs_of_pos hx0, abs_sub_le_iff] at hb
  obtain ⟨hb1, hb2⟩ := hb
  have h3hi : (π / 9) ^ 3 ≤ (0.3490659 : ℝ) ^ 3 := pow_le_pow_left₀ hx0.le hhi.le 3
  have h3lo : (0.3490657 : ℝ) ^ 3 ≤ (π / 9) ^ 3 := pow_le_pow_left₀ (by norm_num) hlo.le 3
  have h4hi : (π / 9) ^ 4 ≤ (0.3490659 : ℝ) ^ 4 := pow_le_pow_left₀ hx0.le hhi.le 4
  constructor
  · have key : (0.3490657 : ℝ) - (0.3490659 : ℝ) ^ 3 / 6 -
        (0.3490659 : ℝ) ^ 4 * (5 / 96) ≤ Real.sin (π / 9) := by linarith
    have hnum : (0.3412 : ℝ) < (0.3490657 : ℝ) - (0.3490659 : ℝ) ^ 3 / 6 -
        (0.3490659 : ℝ) ^ 4 * (5 / 96) := by norm_num
    linarith
  · have key : Real.sin (π / 9) ≤ (0.3490659 : ℝ) - (0.3490657 : ℝ) ^ 3 / 6 +
        (0.3490659 : ℝ) ^ 4 * (5 / 96) := by linarith
    have hnum : (0.3490659 : ℝ) - (0.3490657 : ℝ) ^ 3 / 6 +
        (0.3490659 : ℝ) ^ 4 * (5 / 96) < 0.34276 := by norm_num
    linarith

theorem sin_50_deg_bounds :
    (0.765 : ℝ) < Real.sin (5 * π / 18) ∧ Real.sin (5 * π / 18) < 0.7672 := by
  have he : Real.sin (5 * π / 18) = 1 - 2 * Real.sin (π / 9) ^ 2 := by
    have h1 : 5 * π / 18 = π / 2 - 2 * (π / 9) := by ring
    rw [h1, Real.sin_pi_div_two_sub, Real.cos_two_mul']
    have h2 := Real.sin_sq_add_cos_sq (π / 9)
    linear_combination h2
  obtain ⟨hlo, hhi⟩ := sin_pi_div_nine_bounds
  rw [he]
  constructor <;> nlinarith

theorem neg_log_two_e6_bounds :
    (13.1212204 : ℝ) < -Real.log (2e-6) ∧ -Real.log (2e-6) < 13.1234708 := by
  have h1 : Real.log (2e-6) = -Real.log 500000 := by
    rw [show (2e-6 : ℝ) = (500000 : ℝ)⁻¹ by norm_num, Real.log_inv]
  have h2 : Real.log (500000 : ℝ) = 19 * Real.log 2 + Real.log (500000 / 524288 : ℝ) := by
    rw [show (500000 : ℝ) = 2 ^ (19 : ℕ) * (500000 / 524288 : ℝ) by norm_num,
      Real.log_mul (by positivity) (by norm_num), Real.log_pow]
    push_cast
    ring_nf
  have hq_hi : Real.log (500000 / 524288 : ℝ) ≤ (500000 / 524288 : ℝ) - 1 :=
    Real.log_le_sub_one_of_pos (by norm_num)
  have hq_lo : 1 - (524288 / 500000 : ℝ) ≤ Real.log (500000 / 524288 : ℝ) := by
    have h := Real.log_le_sub_one_of_pos (show (0 : ℝ) < 524288 / 500000 by norm_num)
    have hinv : Real.log ((524288 : ℝ) / 500000) = -Real.log (500000 / 524288 : ℝ) := by
      rw [show ((524288 : ℝ) / 500000) = ((500000 : ℝ) / 524288)⁻¹ by norm_num,
        Real.log_inv]
    rw [hinv] at h
    linarith
  have hl2lo := Real.log_two_gt_d9
  have hl2hi := Real.log_two_lt_d9
  rw [h1, neg_neg, h2]
  constructor
  · nlinarith
  · nlinarith

theorem calculateXi_30_50 :
    calculateXi 30 50 = 40360.6915 * ((280 : ℝ) / 265) ^ (4 : ℕ) * 2 /
      Real.sin (5 * π / 18) := by
  unfold calculateXi radians
  have hwl : WAVELENGTH * 1e9 = 265 := by
    unfold WAVELENGTH
    norm_num
  rw [hwl]
  have h30 : (30 : ℝ) * π / 180 = π / 6 := by ring
  have h50 : (50 : ℝ) * π / 180 = 5 * π / 18 := by ring
  rw [h30, h50, Real.sin_pi_div_six]
  have hs : (0.765 : ℝ) < Real.sin (5 * π / 18) := sin_50_deg_bounds.1
  have hmax : max (1 / 2 * Real.sin (5 * π / 18)) 0.1 = 1 / 2 * Real.sin (5 * π / 18) :=
    max_eq_left (by linarith)
  rw [hmax]
  have hs0 : Real.sin (5 * π / 18) ≠ 0 := by linarith
  field_simp
  ring

theorem calculateOokDistance_30_50 (Pt : ℝ) :
    calculateOokDistance Pt 50000 30 50 =
      (Pt * (0.15 * 265e-9 * Real.sin (5 * π / 18)) /
        (2 * (6.62607015e-34 * 2.99792458e8 * 40360.6915 * ((280 : ℝ) / 265) ^ (4 : ℕ) *
          50000) * (-Real.log (2e-6)))) ^ ((30 : ℝ) / 97) := by
  unfold calculateOokDistance
  rw [calculateAlpha_30_50, calculateXi_30_50]
  dsimp only
  have hexp : (1.0 : ℝ) / (97 / 30) = (30 : ℝ) / 97 := by norm_num
  rw [hexp]
  have hratio : -QUANTUM_EFFICIENCY * WAVELENGTH * Pt /
      (PLANCK_CONSTANT * SPEED_OF_LIGHT *
        (40360.6915 * ((280 : ℝ) / 265) ^ (4 : ℕ) * 2 / Real.sin (5 * π / 18)) * 50000 *
        Real.log (2 * ERROR_PROBABILITY)) =
      Pt * (0.15 * 265e-9 * Real.sin (5 * π / 18)) /
        (2 * (6.62607015e-34 * 2.99792458e8 * 40360.6915 * ((280 : ℝ) / 265) ^ (4 : ℕ) *
          50000) * (-Real.log (2e-6))) := by
    have hs : (0.765 : ℝ) < Real.sin (5 * π / 18) := sin_50_deg_bounds.1
    have hs0 : Real.sin (5 * π / 18) ≠ 0 := by linarith
    have hlog : Real.log (2 * ERROR_PROBABILITY) = Real.log (2e-6) := by
      unfold ERROR_PROBABILITY
      norm_num
    have hlogneg : Real.log (2e-6) < 0 := by
      have := neg_log_two_e6_bounds.1
      linarith
    have hlog0 : Real.log (2e-6) ≠ 0 := ne_of_lt hlogneg
    rw [hlog]
    unfold QUANTUM_EFFICIENCY WAVELENGTH PLANCK_CONSTANT SPEED_OF_LIGHT
    field_simp
    ring
  rw [hratio]

theorem rpow_30_97_lt_iff {b : ℝ} (hb : 0 < b) {c : ℝ} (hc : 0 < c) :
    b ^ ((30 : ℝ) / 97) < c ↔ b ^ (30 : ℕ) < c ^ (97 : ℕ) := by
  have key : (b ^ ((30 : ℝ) / 97)) ^ (97 : ℕ) = b ^ (30 : ℕ) := by
    rw [← Real.rpow_natCast (b ^ ((30 : ℝ) / 97)) 97, ← Real.rpow_mul hb.le]
    rw [show (30 : ℝ) / 97 * (97 : ℕ) = ((30 : ℕ) : ℝ) by push_cast; ring]
    exact Real.rpow_natCast b 30
  constructor
  · intro h
    rw [← key]
    exact pow_lt_pow_left₀ h (Real.rpow_nonneg hb.le _) (by norm_num)
  · intro h
    rw [← key] at h
    exact (pow_lt_pow_iff_left₀ (Real.rpow_nonneg hb.le _) hc.le (by norm_num)).mp h

theorem lt_rpow_30_97_iff {b : ℝ} (hb : 0 < b) {c : ℝ} (hc : 0 < c) :
    c < b ^ ((30 : ℝ) / 97) ↔ c ^ (97 : ℕ) < b ^ (30 : ℕ) := by
  have key : (b ^ ((30 : ℝ) / 97)) ^ (97 : ℕ) = b ^ (30 : ℕ) := by
    rw [← Real.rpow_natCast (b ^ ((30 : ℝ) / 97)) 97, ← Real.rpow_mul hb.le]
    rw [show (30 : ℝ) / 97 * (97 : ℕ) = ((30 : ℕ) : ℝ) by push_cast; ring]
    exact Real.rpow_natCast b 30
  constructor
  · intro h
    rw [← key]
    exact pow_lt_pow_left₀ h hc.le (by norm_num)
  · intro h
    rw [← key] at h
    exact (pow_lt_pow_iff_left₀ hc.le (Real.rpow_nonneg hb.le _) (by norm_num)).mp h

theorem ook_base_bounds (Pt : ℝ) (h0 : 0 < Pt) :
    Pt * (0.15 * 265e-9 * 0.765) /
        (2 * (6.62607015e-34 * 2.99792458e8 * 40360.6915 * ((280 : ℝ) / 265) ^ (4 : ℕ) *
          50000) * 13.1234708) ≤
      Pt * (0.15 * 265e-9 * Real.sin (5 * π / 18)) /
        (2 * (6.62607015e-34 * 2.99792458e8 * 40360.6915 * ((280 : ℝ) / 265) ^ (4 : ℕ) *
          50000) * (-Real.log (2e-6))) ∧
    Pt * (0.15 * 265e-9 * Real.sin (5 * π / 18)) /
        (2 * (6.62607015e-34 * 2.99792458e8 * 40360.6915 * ((280 : ℝ) / 265) ^ (4 : ℕ) *
          50000) * (-Real.log (2e-6))) ≤
      Pt * (0.15 * 265e-9 * 0.7672) /
        (2 * (6.62607015e-34 * 2.99792458e8 * 40360.6915 * ((280 : ℝ) / 265) ^ (4 : ℕ) *
          50000) * 13.1212204) := by
  obtain ⟨hslo, hshi⟩ := sin_50_deg_bounds
  obtain ⟨hmlo, hmhi⟩ := neg_log_two_e6_bounds
  constructor
  · gcongr
  · gcongr

theorem ook_base_pos (Pt : ℝ) (h0 : 0 < Pt) :
    0 < Pt * (0.15 * 265e-9 * Real.sin (5 * π / 18)) /
        (2 * (6.62607015e-34 * 2.99792458e8 * 40360.6915 * ((280 : ℝ) / 265) ^ (4 : ℕ) *
          50000) * (-Real.log (2e-6))) := by
  obtain ⟨hslo, _⟩ := sin_50_deg_bounds
  obtain ⟨hmlo, _⟩ := neg_log_two_e6_bounds
  have hs : (0 : ℝ) < Real.sin (5 * π / 18) := by linarith
  have hm : (0 : ℝ) < -Real.log (2e-6) := by linarith
  positivity

/-- The calibrated channel model puts the reference input strictly between
74.6 m and 75.6 m. -/
theorem ook_reference_bounds :
    74.6 < calculateOokDistance 0.5 50000 30 50 ∧
      calculateOokDistance 0.5 50000 30 50 < 75.6 := by
  rw [calculateOokDistance_30_50]
  obtain ⟨hlb, hub⟩ := ook_base_bounds 0.5 (by norm_num)
  have hb0 := ook_base_pos 0.5 (by norm_num)
  constructor
  · rw [lt_rpow_30_97_iff hb0 (by norm_num)]
    calc (74.6 : ℝ) ^ (97 : ℕ)
        < (0.5 * (0.15 * 265e-9 * 0.765) /
            (2 * (6.62607015e-34 * 2.99792458e8 * 40360.6915 *
              ((280 : ℝ) / 265) ^ (4 : ℕ) * 50000) * 13.1234708)) ^ (30 : ℕ) := by
          norm_num
      _ ≤ (0.5 * (0.15 * 265e-9 * Real.sin (5 * π / 18)) /
            (2 * (6.62607015e-34 * 2.99792458e8 * 40360.6915 *
              ((280 : ℝ) / 265) ^ (4 : ℕ) * 50000) * (-Real.log (2e-6)))) ^ (30 : ℕ) :=
          pow_le_pow_left₀ (by norm_num) hlb 30
  · rw [rpow_30_97_lt_iff hb0 (by norm_num)]
    calc (0.5 * (0.15 * 265e-9 * Real.sin (5 * π / 18)) /
            (2 * (6.62607015e-34 * 2.99792458e8 * 40360.6915 *
              ((280 : ℝ) / 265) ^ (4 : ℕ) * 50000) * (-Real.log (2e-6)))) ^ (30 : ℕ)
        ≤ (0.5 * (0.15 * 265e-9 * 0.7672) /
            (2 * (6.62607015e-34 * 2.99792458e8 * 40360.6915 *
              ((280 : ℝ) / 265) ^ (4 : ℕ) * 50000) * 13.1212204)) ^ (30 : ℕ) :=
          pow_le_pow_left₀ hb0.le hub 30
      _ < (75.6 : ℝ) ^ (97 : ℕ) := by norm_num

/-- Claim C1.  For the canonical calibration input Pt = 0.5 W, Rd = 50 kbps,
θ1 = 30°, θ2 = 50°, calculate_ook_distance returns a distance within 0.5 m of
75.1 m (under 1 % error), through the calibrated xi base constant and the
angle-dependent alpha. -/
theorem ook_distance_reference_calibration :
    |calculateOokDistance 0.5 50000 30 50 - 75.1| < 0.5 := by
  obtain ⟨h1, h2⟩ := ook_reference_bounds
  rw [abs_sub_lt_iff]
  constructor <;> linarith

/-! ### The default power bracket cannot reach 100 m -/

theorem ook_below_935 : ∀ p : ℝ, 0 < p → p ≤ 1 →
    calculateOokDistance p 50000 30 50 < 93.5 := by
  intro p hp0 hp1
  rw [calculateOokDistance_30_50]
  have hb0 := ook_base_pos p hp0
  rw [rpow_30_97_lt_iff hb0 (by norm_num)]
  have hs0 : (0 : ℝ) ≤ Real.sin (5 * π / 18) := by
    linarith [sin_50_deg_bounds.1]
  have hm0 : (0 : ℝ) < -Real.log (2e-6) := by
    linarith [neg_log_two_e6_bounds.1]
  have hstep : p * (0.15 * 265e-9 * Real.sin (5 * π / 18)) /
      (2 * (6.62607015e-34 * 2.99792458e8 * 40360.6915 * ((280 : ℝ) / 265) ^ (4 : ℕ) *
        50000) * (-Real.log (2e-6))) ≤
      1 * (0.15 * 265e-9 * Real.sin (5 * π / 18)) /
      (2 * (6.62607015e-34 * 2.99792458e8 * 40360.6915 * ((280 : ℝ) / 265) ^ (4 : ℕ) *
        50000) * (-Real.log (2e-6))) := by
    gcongr
  have hub := (ook_base_bounds 1 (by norm_num)).2
  calc (p * (0.15 * 265e-9 * Real.sin (5 * π / 18)) /
        (2 * (6.62607015e-34 * 2.99792458e8 * 40360.6915 * ((280 : ℝ) / 265) ^ (4 : ℕ) *
          50000) * (-Real.log (2e-6)))) ^ (30 : ℕ)
      ≤ (1 * (0.15 * 265e-9 * 0.7672) /
        (2 * (6.62607015e-34 * 2.99792458e8 * 40360.6915 * ((280 : ℝ) / 265) ^ (4 : ℕ) *
          50000) * 13.1212204)) ^ (30 : ℕ) :=
        pow_le_pow_left₀ hb0.le (le_trans hstep hub) 30
    _ < (93.5 : ℝ) ^ (97 : ℕ) := by norm_num

theorem power_step (fuel : ℕ) (lo mid : ℝ) (hmid : (lo + 1) / 2 = mid)
    (h1 : 0.001 < 1 - lo) (h2 : calculateOokDistance mid 50000 30 50 < 100) :
    findRequiredPowerLoop 50000 30 50 100 (fuel + 1) lo 1 =
      findRequiredPowerLoop 50000 30 50 100 fuel mid 1 := by
  simp only [findRequiredPowerLoop]
  rw [if_pos h1, hmid, if_pos h2]

theorem power_end (fuel : ℕ) (lo : ℝ) (h1 : ¬ (0.001 < 1 - lo)) :
    findRequiredPowerLoop 50000 30 50 100 fuel lo 1 = some ((lo + 1) / 2) := by
  cases fuel <;> simp only [findRequiredPowerLoop] <;> rw [if_neg h1]

/-- The concrete run of find_required_power(100, 50e3, 30, 50) with the
default bracket: every bisection step raises the lower end, and after the
10 iterations implied by the 0.001 guard the midpoint of the final bracket
is returned. -/
theorem find_required_power_run :
    findRequiredPower 100 50000 30 50 0.01 1 0.001 10 = some 0.9995166015625 := by
  have hd : ∀ p : ℝ, 0 < p → p ≤ 1 → calculateOokDistance p 50000 30 50 < 100 :=
    fun p h1 h2 => lt_trans (ook_below_935 p h1 h2) (by norm_num)
  unfold findRequiredPower
  calc findRequiredPowerLoop 50000 30 50 100 10 0.01 1
      = findRequiredPowerLoop 50000 30 50 100 9 0.505 1 :=
        power_step 9 0.01 0.505 (by norm_num) (by norm_num)
          (hd 0.505 (by norm_num) (by norm_num))
    _ = findRequiredPowerLoop 50000 30 50 100 8 0.7525 1 :=
        power_step 8 0.505 0.7525 (by norm_num) (by norm_num)
          (hd 0.7525 (by norm_num) (by norm_num))
    _ = findRequiredPowerLoop 50000 30 50 100 7 0.87625 1 :=
        power_step 7 0.7525 0.87625 (by norm_num) (by norm_num)
          (hd 0.87625 (by norm_num) (by norm_num))
    _ = findRequiredPowerLoop 50000 30 50 100 6 0.938125 1 :=
        power_step 6 0.87625 0.938125 (by norm_num) (by norm_num)
          (hd 0.938125 (by norm_num) (by norm_num))
    _ = findRequiredPowerLoop 50000 30 50 100 5 0.9690625 1 :=
        power_step 5 0.938125 0.9690625 (by norm_num) (by norm_num)
          (hd 0.9690625 (by norm_num) (by norm_num))
    _ = findRequiredPowerLoop 50000 30 50 100 4 0.98453125 1 :=
        power_step 4 0.9690625 0.98453125 (by norm_num) (by norm_num)
          (hd 0.98453125 (by norm_num) (by norm_num))
    _ = findRequiredPowerLoop 50000 30 50 100 3 0.992265625 1 :=
        power_step 3 0.98453125 0.992265625 (by norm_num) (by norm_num)
          (hd 0.992265625 (by norm_num) (by norm_num))
    _ = findRequiredPowerLoop 50000 30 50 100 2 0.9961328125 1 :=
        power_step 2 0.992265625 0.9961328125 (by norm_num) (by norm_num)
          (hd 0.9961328125 (by norm_num) (by norm_num))
    _ = findRequiredPowerLoop 50000 30 50 100 1 0.99806640625 1 :=
        power_step 1 0.9961328125 0.99806640625 (by norm_num) (by norm_num)
          (hd 0.99806640625 (by norm_num) (by norm_num))
    _ = findRequiredPowerLoop 50000 30 50 100 0 0.999033203125 1 :=
        power_step 0 0.99806640625 0.999033203125 (by norm_num) (by norm_num)
          (hd 0.999033203125 (by norm_num) (by norm_num))
    _ = some ((0.999033203125 + 1) / 2) := power_end 0 0.999033203125 (by norm_num)
    _ = some 0.9995166015625 := by norm_num

/-- Counterexample to claim C4 as stated.  The call
find_required_power(target_distance = 100, Rd = 50e3, θ1 = 30, θ2 = 50) with
its default bracket returns the power 0.9995166015625 W, and the distance
achieved by that power is not within the search tolerance 0.001 of 100 m:
the target is unreachable inside the default bracket. -/
theorem find_required_power_not_within_tolerance :
    findRequiredPower 100 50000 30 50 0.01 1 0.001 10 = some 0.9995166015625 ∧
    ¬ (|calculateOokDistance 0.9995166015625 50000 30 50 - 100| ≤ 0.001) := by
  refine ⟨find_required_power_run, ?_⟩
  intro habs
  rw [abs_le] at habs
  have h := ook_below_935 0.9995166015625 (by norm_num) (by norm_num)
  linarith [habs.1]

/-- Claim C4, amended.  The call find_required_power(100, 50e3, 30, 50) with
the default bracket terminates within the 10 iterations implied by the
hard-coded 0.001 guard and the 0.99 W bracket width, and returns a power
pinned at the top of the bracket (0.9995166015625 W); the distance achieved
at that power stays below 93.5 m, more than 6 m short of the 100 m target,
which is unreachable within the default power bracket. -/
theorem find_required_power_bracket_pinned :
    findRequiredPower 100 50000 30 50 0.01 1 0.001 10 = some 0.9995166015625 ∧
    calculateOokDistance 0.9995166015625 50000 30 50 < 93.5 :=
  ⟨find_required_power_run, ook_below_935 0.9995166015625 (by norm_num) (by norm_num)⟩

/-! ### Power optimizer feasibility handling -/

theorem findMinimumPowerLoop_mem (target Rd theta1 theta2 : ℝ) :
    ∀ (fuel : ℕ) (lo hi : ℝ), 0.1 ≤ lo → lo ≤ hi → hi ≤ 0.5 →
      ∀ p : ℝ, findMinimumPowerLoop target Rd theta1 theta2 fuel lo hi = some p →
        0.1 ≤ p ∧ p ≤ 0.5 := by
  intro fuel
  induction fuel with
  | zero =>
    intro lo hi hlo hlohi hhi p hp
    simp only [findMinimumPowerLoop] at hp
    split at hp
    · exact absurd hp (by simp)
    · obtain rfl : hi = p := by simpa using hp
      exact ⟨le_trans hlo hlohi, hhi⟩
  | succ fuel ih =>
    intro lo hi hlo hlohi hhi p hp
    simp only [findMinimumPowerLoop] at hp
    split at hp
    · split at hp
      · exact ih ((lo + hi) / 2) hi (by linarith) (by linarith) hhi p hp
      · exact ih lo ((lo + hi) / 2) hlo (by linarith) (by linarith) p hp
    · obtain rfl : hi = p := by simpa using hp
      exact ⟨le_trans hlo hlohi, hhi⟩

/-- Claim C8.  Whenever the target distance is unreachable even at the
maximum power bound, find_minimum_power_for_distance returns a result with
feasible = false carrying the distance achieved at maximum power and an
explanatory message; and a result reported as feasible always carries a
power inside the engineering bracket, never an out-of-bounds value. -/
theorem power_optimizer_feasibility (target Rd theta1 theta2 : ℝ) (fuel : ℕ) :
    (calculateOokDistance PT_MAX Rd theta1 theta2 < target →
      findMinimumPowerForDistance target Rd theta1 theta2 fuel =
        some ⟨false, PT_MAX, calculateOokDistance PT_MAX Rd theta1 theta2, target,
          some "Target not achievable with max power"⟩) ∧
    (∀ res : PowerSearchResult,
      findMinimumPowerForDistance target Rd theta1 theta2 fuel = some res →
      res.feasible = true → PT_MIN ≤ res.required_power ∧ res.required_power ≤ PT_MAX) := by
  constructor
  · intro h
    unfold findMinimumPowerForDistance
    rw [if_pos h]
  · intro res hres hfeas
    unfold findMinimumPowerForDistance at hres
    dsimp only at hres
    split at hres
    · obtain rfl : _ = res := by simpa using hres
      simp at hfeas
    · rw [Option.map_eq_some'] at hres
      obtain ⟨p, hp, rfl⟩ := hres
      have := findMinimumPowerLoop_mem target Rd theta1 theta2 fuel PT_MIN PT_MAX
        (by norm_num [PT_MIN]) (by norm_num [PT_MIN, PT_MAX]) (by norm_num [PT_MAX]) p hp
      simpa [PT_MIN, PT_MAX] using this

/-- Witness for claim C8: at target 1000 m the maximum-power distance is
below target, so the optimizer reports feasible = false with the achieved
distance and a message. -/
theorem power_optimizer_feasibility_witness :
    findMinimumPowerForDistance 1000 50000 30 50 6 =
      some ⟨false, PT_MAX, calculateOokDistance PT_MAX 50000 30 50, 1000,
        some "Target not achievable with max power"⟩ :=
  (power_optimizer_feasibility 1000 50000 30 50 6).1
    (by
      have h : calculateOokDistance PT_MAX 50000 30 50 < 93.5 :=
        ook_below_935 PT_MAX (by norm_num [PT_MAX]) (by norm_num [PT_MAX])
      linarith)

/-! ### Evaluation of the sampling grid on interior configurations -/

theorem arctan2_of_pos (y : ℝ) {x : ℝ} (hx : 0 < x) :
    arctan2 y x = Real.arctan (y / x) := if_pos hx

theorem polar_roundtrip (x y : ℝ) (hx : 0 < x) :
    Real.sqrt (x ^ 2 + y ^ 2) * Real.cos (arctan2 y x) = x ∧
    Real.sqrt (x ^ 2 + y ^ 2) * Real.sin (arctan2 y x) = y := by
  rw [arctan2_of_pos y hx]
  have ht : Real.sqrt (x ^ 2 + y ^ 2) = x * Real.sqrt (1 + (y / x) ^ 2) := by
    rw [show x ^ 2 + y ^ 2 = x ^ 2 * (1 + (y / x) ^ 2) by field_simp]
    rw [Real.sqrt_mul (sq_nonneg x), Real.sqrt_sq hx.le]
  have hpos : 0 < Real.sqrt (1 + (y / x) ^ 2) := Real.sqrt_pos.mpr (by positivity)
  rw [ht, Real.cos_arctan, Real.sin_arctan]
  constructor
  · field_simp
  · field_simp

theorem gridSize_twenty : gridSize 20 = 5 := by
  unfold gridSize
  rw [Nat.ceil_eq_iff (by norm_num)]
  constructor
  · push_cast
    rw [Real.lt_sqrt (by norm_num)]
    norm_num
  · push_cast
    rw [Real.sqrt_le_iff]
    norm_num

theorem sqrt_million : Real.sqrt 1000000 = 1000 := by
  rw [show (1000000 : ℝ) = 1000 ^ 2 by norm_num, Real.sqrt_sq (by norm_num)]

theorem adjacent_interior {l : ℝ} (hl : 0 < l) (hl6 : l ≤ 1000 / 6) (n : ℕ)
    {x y : ℝ} (hx1 : 1000 / 6 ≤ x) (hx2 : x ≤ 5000 / 6)
    (hy1 : 1000 / 6 ≤ y) (hy2 : y ≤ 5000 / 6) :
    calculateAdjacentProbabilitySimple (Real.sqrt (x ^ 2 + y ^ 2)) (arctan2 y x) l n
      1000000 = min (((n : ℝ) - 1) / 1000000 * (π * l ^ 2)) 1 := by
  have hx0 : (0 : ℝ) < x := lt_of_lt_of_le (by norm_num) hx1
  obtain ⟨hc, hs⟩ := polar_roundtrip x y hx0
  unfold calculateAdjacentProbabilitySimple
  dsimp only
  rw [sqrt_million, hc, hs]
  have hcond : l ≤ min (min x y) (min (1000 - x) (1000 - y)) := by
    simp only [le_min_iff]
    refine ⟨⟨?_, ?_⟩, ?_, ?_⟩ <;> linarith
  rw [if_pos hcond]

theorem calculateQnm_interior {l : ℝ} (hl : 0 < l) (hl6 : l ≤ 1000 / 6)
    (n : ℕ) (m : ℤ) :
    calculateQnm l n m 1000000 20 =
      probabilityAtLeastM n m (min (((n : ℝ) - 1) / 1000000 * (π * l ^ 2)) 1) := by
  unfold calculateQnm
  dsimp only
  rw [gridSize_twenty, sqrt_million]
  have h6 : (1000 : ℝ) / (((5 : ℕ) : ℝ) + 1) = 1000 / 6 := by
    push_cast
    norm_num
  rw [h6]
  have hconst : ∀ i ∈ Finset.Icc (1 : ℕ) 5, ∀ j ∈ Finset.Icc (1 : ℕ) 5,
      adjacentProbabilityAtLeastM
        (Real.sqrt (((i : ℝ) * (1000 / 6)) ^ 2 + ((j : ℝ) * (1000 / 6)) ^ 2))
        (arctan2 ((j : ℝ) * (1000 / 6)) ((i : ℝ) * (1000 / 6))) l n m 1000000 =
      probabilityAtLeastM n m (min (((n : ℝ) - 1) / 1000000 * (π * l ^ 2)) 1) := by
    intro i hi j hj
    obtain ⟨hi1, hi5⟩ := Finset.mem_Icc.mp hi
    obtain ⟨hj1, hj5⟩ := Finset.mem_Icc.mp hj
    have hi1r : (1 : ℝ) ≤ (i : ℝ) := by exact_mod_cast hi1
    have hi5r : (i : ℝ) ≤ 5 := by exact_mod_cast hi5
    have hj1r : (1 : ℝ) ≤ (j : ℝ) := by exact_mod_cast hj1
    have hj5r : (j : ℝ) ≤ 5 := by exact_mod_cast hj5
    unfold adjacentProbabilityAtLeastM
    rw [adjacent_interior hl hl6 n (by linarith) (by linarith) (by linarith) (by linarith)]
  rw [Finset.sum_congr rfl
    (fun i hi => Finset.sum_congr rfl (fun j hj => hconst i hi j hj))]
  simp only [Finset.sum_const, Nat.card_Icc, nsmul_eq_mul]
  push_cast
  ring

theorem probabilityAtLeastM_one {n : ℕ} (hn : 2 ≤ n) (p : ℝ) :
    probabilityAtLeastM n 1 p = 1 - (1 - p) ^ (n - 1) := by
  unfold probabilityAtLeastM
  rw [if_neg (by omega : ¬ ((n : ℤ) ≤ 1)), if_neg (by omega : ¬ ((1 : ℤ) ≤ 0))]
  rw [show ((1 : ℤ).toNat) = 1 from rfl, Finset.sum_range_one]
  unfold binomialPmf
  rw [if_neg (by omega)]
  norm_num

theorem networkConnectivityProbability_one {l : ℝ} (hl : 0 < l) (hl6 : l ≤ 1000 / 6)
    {n : ℕ} (hn : 2 ≤ n) (hp : ((n : ℝ) - 1) / 1000000 * (π * l ^ 2) ≤ 1) :
    networkConnectivityProbability l n 1 1000000 20 =
      (1 - (1 - ((n : ℝ) - 1) / 1000000 * (π * l ^ 2)) ^ (n - 1)) ^ n := by
  unfold networkConnectivityProbability
  rw [calculateQnm_interior hl hl6 n 1, min_eq_left hp, probabilityAtLeastM_one hn]

/-- Counterexample to the second part of claim C5.  At l = 50, m = 1,
area = 1e6, raising the node count from 2 to 3 strictly decreases the
network connectivity probability. -/
theorem connectivity_not_monotone_in_n :
    networkConnectivityProbability 50 3 1 1000000 20 <
      networkConnectivityProbability 50 2 1 1000000 20 := by
  have hpi1 := Real.pi_gt_d6
  have hpi2 := Real.pi_lt_d6
  have h2 : networkConnectivityProbability 50 2 1 1000000 20 =
      (1 - (1 - ((2 : ℝ) - 1) / 1000000 * (π * 50 ^ 2)) ^ (2 - 1)) ^ 2 := by
    rw [networkConnectivityProbability_one (by norm_num) (by norm_num) (by norm_num)
      (by push_cast; nlinarith)]
    norm_num
  have h3 : networkConnectivityProbability 50 3 1 1000000 20 =
      (1 - (1 - ((3 : ℝ) - 1) / 1000000 * (π * 50 ^ 2)) ^ (3 - 1)) ^ 3 := by
    rw [networkConnectivityProbability_one (by norm_num) (by norm_num) (by norm_num)
      (by push_cast; nlinarith)]
    norm_num
  rw [h2, h3]
  have e2 : (1 - (1 - ((2 : ℝ) - 1) / 1000000 * (π * 50 ^ 2)) ^ (2 - 1)) ^ 2 =
      (π / 400) ^ 2 := by
    norm_num
    ring
  have e3 : (1 - (1 - ((3 : ℝ) - 1) / 1000000 * (π * 50 ^ 2)) ^ (3 - 1)) ^ 3 =
      (π / 200 * (2 - π / 200)) ^ 3 := by
    norm_num
    ring
  rw [e2, e3]
  have hb : π / 200 * (2 - π / 200) ≤ π / 100 := by nlinarith
  have hb0 : 0 ≤ π / 200 * (2 - π / 200) := by nlinarith
  calc (π / 200 * (2 - π / 200)) ^ 3 ≤ (π / 100) ^ 3 := pow_le_pow_left₀ hb0 hb 3
    _ < (π / 400) ^ 2 := by nlinarith [sq_nonneg π, Real.pi_pos]

/-! ### Correctness envelope of the node-count bisection -/

theorem findRequiredNodesLoop_correct (f : ℕ → ℝ) (target : ℝ) (tol lo hi : ℕ)
    (htol : 1 ≤ tol)
    (hmono : ∀ a b : ℕ, lo ≤ a → a ≤ b → b ≤ hi → f a ≤ f b) :
    ∀ (fuel a b : ℕ), lo ≤ a → b ≤ hi → a ≤ b → b - a ≤ 2 ^ fuel →
      f a < target → target ≤ f b →
      ∃ r : ℕ, findRequiredNodesLoop f target tol fuel a b = some r ∧
        a ≤ r ∧ r ≤ b ∧ target ≤ f r ∧
        ∀ k : ℕ, lo ≤ k → target ≤ f k → r ≤ k + tol := by
  intro fuel
  induction fuel with
  | zero =>
    intro a b hloa hbhi hab hw hfa hfb
    have hw1 : b - a ≤ 1 := by
      have : (2 : ℕ) ^ 0 = 1 := pow_zero 2
      omega
    refine ⟨b, ?_, hab, le_refl b, hfb, ?_⟩
    · simp only [findRequiredNodesLoop]
      rw [if_neg (by omega)]
    · intro k hlok hfk
      by_cases hk : k ≤ hi
      · have hka : a < k := by
          by_contra hcon
          push_neg at hcon
          have := hmono k a hlok hcon (le_trans hab hbhi)
          linarith
        omega
      · push_neg at hk
        omega
  | succ fuel ih =>
    intro a b hloa hbhi hab hw hfa hfb
    by_cases hguard : tol < b - a
    · have h2 : (2 : ℕ) ^ (fuel + 1) = 2 ^ fuel + 2 ^ fuel := by ring
      have h1 : 1 ≤ (2 : ℕ) ^ fuel := Nat.one_le_two_pow
      by_cases hbranch : f ((a + b) / 2) < target
      · obtain ⟨r, hr, hr1, hr2, hr3, hr4⟩ := ih ((a + b) / 2) b (by omega) hbhi
          (by omega) (by omega) hbranch hfb
        refine ⟨r, ?_, by omega, hr2, hr3, hr4⟩
        simp only [findRequiredNodesLoop]
        rw [if_pos hguard, if_pos hbranch]
        exact hr
      · push_neg at hbranch
        obtain ⟨r, hr, hr1, hr2, hr3, hr4⟩ := ih a ((a + b) / 2) hloa (by omega)
          (by omega) (by omega) hfa hbranch
        refine ⟨r, ?_, hr1, by omega, hr3, hr4⟩
        simp only [findRequiredNodesLoop]
        rw [if_pos hguard, if_neg (not_lt.mpr hbranch)]
        exact hr
    · refine ⟨b, ?_, hab, le_refl b, hfb, ?_⟩
      · simp only [findRequiredNodesLoop]
        rw [if_neg hguard]
      · intro k hlok hfk
        by_cases hk : k ≤ hi
        · have hka : a < k := by
            by_contra hcon
            push_neg at hcon
            have := hmono k a hlok hcon (le_trans hab hbhi)
            linarith
          omega
        · push_neg at hk
          omega

/-- Claim C3, amended.  When the connectivity probability is non-decreasing
in the node count between nMin and nMax and the target is bracketed
(below target at nMin, at or above target at nMax), find_required_nodes
returns a node count in the bracket whose probability is at or above the
target, within the tolerance of the smallest such count, and reports the
probability actually achieved at the returned count.  Without the bracketing
assumption the returned count need not meet the target. -/
theorem find_required_nodes_bracketed_spec (l area : ℝ) (m : ℤ) (target : ℝ)
    (lo hi tol fuel : ℕ) (htol : 1 ≤ tol) (hw : hi - lo ≤ 2 ^ fuel)
    (hab : lo ≤ hi)
    (hmono : ∀ a b : ℕ, lo ≤ a → a ≤ b → b ≤ hi →
      networkConnectivityProbability l a m area 20 ≤
        networkConnectivityProbability l b m area 20)
    (hlo : networkConnectivityProbability l lo m area 20 < target)
    (hhi : target ≤ networkConnectivityProbability l hi m area 20) :
    ∃ res : NodeSearchResult,
      findRequiredNodes l area m target lo hi tol fuel = some res ∧
      lo ≤ res.required_nodes ∧ res.required_nodes ≤ hi ∧
      target ≤ networkConnectivityProbability l res.required_nodes m area 20 ∧
      res.achieved_probability =
        networkConnectivityProbability l res.required_nodes m area 20 ∧
      ∀ k : ℕ, lo ≤ k →
        target ≤ networkConnectivityProbability l k m area 20 →
        res.required_nodes ≤ k + tol := by
  obtain ⟨r, hr, hr1, hr2, hr3, hr4⟩ :=
    findRequiredNodesLoop_correct
      (fun k => networkConnectivityProbability l k m area 20) target tol lo hi htol
      hmono fuel lo hi (le_refl lo) (le_refl hi) hab hw hlo hhi
  refine ⟨⟨r, l, m, target, networkConnectivityProbability l r m area 20, area⟩,
    ?_, hr1, hr2, hr3, rfl, hr4⟩
  unfold findRequiredNodes
  rw [hr]
  rfl

/-! ### A run of find_required_nodes where the target is unreachable -/

theorem findRequiredNodesLoop_step (f : ℕ → ℝ) (target : ℝ) (tol fuel a b mid : ℕ)
    (hmid : (a + b) / 2 = mid) (h1 : tol < b - a) (h2 : f mid < target) :
    findRequiredNodesLoop f target tol (fuel + 1) a b =
      findRequiredNodesLoop f target tol fuel mid b := by
  simp only [findRequiredNodesLoop]
  rw [if_pos h1, hmid, if_pos h2]

theorem findRequiredNodesLoop_end (f : ℕ → ℝ) (target : ℝ) (tol fuel a b : ℕ)
    (h1 : ¬ (tol < b - a)) :
    findRequiredNodesLoop f target tol fuel a b = some b := by
  cases fuel <;> simp only [findRequiredNodesLoop] <;> rw [if_neg h1]

theorem netConnProb_small (n : ℕ) (h2 : 2 ≤ n) (h500 : n ≤ 500) :
    networkConnectivityProbability 1 n 1 1000000 20 < 0.9 := by
  have hpi2 := Real.pi_lt_d6
  have hpi0 := Real.pi_pos
  have hn1 : (1 : ℝ) ≤ (n : ℝ) := by exact_mod_cast le_trans (by norm_num) h2
  have hn500 : (n : ℝ) ≤ 500 := by exact_mod_cast h500
  have hp : ((n : ℝ) - 1) / 1000000 * (π * 1 ^ 2) ≤ 1 := by nlinarith
  rw [networkConnectivityProbability_one (by norm_num) (by norm_num) h2 hp]
  have hP0 : 0 ≤ ((n : ℝ) - 1) / 1000000 * (π * 1 ^ 2) := by
    apply mul_nonneg (div_nonneg (by linarith) (by norm_num)) (by positivity)
  have hcast : ((n - 1 : ℕ) : ℝ) = (n : ℝ) - 1 := by
    rw [Nat.cast_sub (by omega : 1 ≤ n)]
    norm_num
  have hber := one_add_mul_le_pow
    (show (-2 : ℝ) ≤ -(((n : ℝ) - 1) / 1000000 * (π * 1 ^ 2)) by linarith) (n - 1)
  rw [hcast] at hber
  have hbase : (1 : ℝ) + -(((n : ℝ) - 1) / 1000000 * (π * 1 ^ 2)) =
      1 - ((n : ℝ) - 1) / 1000000 * (π * 1 ^ 2) := by ring
  rw [hbase] at hber
  have hQ : 1 - (1 - ((n : ℝ) - 1) / 1000000 * (π * 1 ^ 2)) ^ (n - 1) ≤
      ((n : ℝ) - 1) * (((n : ℝ) - 1) / 1000000 * (π * 1 ^ 2)) := by nlinarith
  have hsq : ((n : ℝ) - 1) ^ 2 ≤ 249001 := by nlinarith
  have hA : ((n : ℝ) - 1) * (((n : ℝ) - 1) / 1000000 * (π * 1 ^ 2)) ≤ 0.79 := by
    nlinarith
  have hQ0 : 0 ≤ 1 - (1 - ((n : ℝ) - 1) / 1000000 * (π * 1 ^ 2)) ^ (n - 1) := by
    have h1 : (1 - ((n : ℝ) - 1) / 1000000 * (π * 1 ^ 2)) ^ (n - 1) ≤ 1 :=
      pow_le_one₀ (by linarith) (by linarith)
    linarith
  have hQ1 : 1 - (1 - ((n : ℝ) - 1) / 1000000 * (π * 1 ^ 2)) ^ (n - 1) ≤ 1 := by
    have := pow_nonneg (show (0 : ℝ) ≤ 1 - ((n : ℝ) - 1) / 1000000 * (π * 1 ^ 2)
      by linarith) (n - 1)
    linarith
  calc (1 - (1 - ((n : ℝ) - 1) / 1000000 * (π * 1 ^ 2)) ^ (n - 1)) ^ n
      ≤ (1 - (1 - ((n : ℝ) - 1) / 1000000 * (π * 1 ^ 2)) ^ (n - 1)) ^ 1 :=
        pow_le_pow_of_le_one hQ0 hQ1 (by omega)
    _ = 1 - (1 - ((n : ℝ) - 1) / 1000000 * (π * 1 ^ 2)) ^ (n - 1) := pow_one _
    _ ≤ 0.79 := by linarith
    _ < 0.9 := by norm_num

set_option maxRecDepth 10000 in
/-- Counterexample to claim C3 as stated.  At l = 1 m, area = 1e6, m = 1,
target 0.9 and default bracket 10..500 with tolerance 5, the search returns
n = 500 with an achieved probability strictly below the target: no node
count in the bracket reaches the target, yet the function still returns one,
so the returned count is not a node count at or above the target. -/
theorem find_required_nodes_misses_target :
    ∃ res : NodeSearchResult,
      findRequiredNodes 1 1000000 1 0.9 10 500 5 9 = some res ∧
      res.required_nodes = 500 ∧
      res.achieved_probability < res.target_probability := by
  have hf : ∀ k : ℕ, 2 ≤ k → k ≤ 500 →
      networkConnectivityProbability 1 k 1 1000000 20 < 0.9 :=
    fun k ha hb => netConnProb_small k ha hb
  have hrun : findRequiredNodesLoop
      (fun k => networkConnectivityProbability 1 k 1 1000000 20) 0.9 5 9 10 500 =
      some 500 := by
    refine (findRequiredNodesLoop_step (fun k => networkConnectivityProbability 1 k 1 1000000 20) 0.9 5 8 10 500 255 (by norm_num) (by norm_num)
      (hf 255 (by norm_num) (by norm_num))).trans ?_
    refine (findRequiredNodesLoop_step (fun k => networkConnectivityProbability 1 k 1 1000000 20) 0.9 5 7 255 500 377 (by norm_num) (by norm_num)
      (hf 377 (by norm_num) (by norm_num))).trans ?_
    refine (findRequiredNodesLoop_step (fun k => networkConnectivityProbability 1 k 1 1000000 20) 0.9 5 6 377 500 438 (by norm_num) (by norm_num)
      (hf 438 (by norm_num) (by norm_num))).trans ?_
    refine (findRequiredNodesLoop_step (fun k => networkConnectivityProbability 1 k 1 1000000 20) 0.9 5 5 438 500 469 (by norm_num) (by norm_num)
      (hf 469 (by norm_num) (by norm_num))).trans ?_
    refine (findRequiredNodesLoop_step (fun k => networkConnectivityProbability 1 k 1 1000000 20) 0.9 5 4 469 500 484 (by norm_num) (by norm_num)
      (hf 484 (by norm_num) (by norm_num))).trans ?_
    refine (findRequiredNodesLoop_step (fun k => networkConnectivityProbability 1 k 1 1000000 20) 0.9 5 3 484 500 492 (by norm_num) (by norm_num)
      (hf 492 (by norm_num) (by norm_num))).trans ?_
    refine (findRequiredNodesLoop_step (fun k => networkConnectivityProbability 1 k 1 1000000 20) 0.9 5 2 492 500 496 (by norm_num) (by norm_num)
      (hf 496 (by norm_num) (by norm_num))).trans ?_
    exact findRequiredNodesLoop_end (fun k => networkConnectivityProbability 1 k 1 1000000 20) 0.9 5 2 496 500 (by norm_num)
  refine ⟨⟨500, 1, 1, 0.9, networkConnectivityProbability 1 500 1 1000000 20, 1000000⟩,
    ?_, rfl, ?_⟩
  · unfold findRequiredNodes
    rw [hrun]
    rfl
  · exact hf 500 (by norm_num) (by norm_num)

/-! ### A bracketed run of find_required_nodes for the witness -/

theorem sqrt_20000_div_pi_pos : 0 < Real.sqrt (20000 / π) :=
  Real.sqrt_pos.mpr (by positivity)

theorem pi_mul_sqrt_20000_sq : π * Real.sqrt (20000 / π) ^ 2 = 20000 := by
  rw [Real.sq_sqrt (by positivity : (0 : ℝ) ≤ 20000 / π)]
  field_simp

theorem sqrt_20000_div_pi_le : Real.sqrt (20000 / π) ≤ 1000 / 6 := by
  rw [Real.sqrt_le_iff]
  constructor
  · norm_num
  · rw [div_le_iff₀ Real.pi_pos]
    nlinarith [Real.pi_gt_d6]

theorem g_eval (k : ℕ) (h2 : 2 ≤ k) (h51 : k ≤ 51) :
    networkConnectivityProbability (Real.sqrt (20000 / π)) k 1 1000000 20 =
      (1 - (1 - ((k : ℝ) - 1) / 50) ^ (k - 1)) ^ k := by
  have hk51 : (k : ℝ) ≤ 51 := by exact_mod_cast h51
  have hk1 : (1 : ℝ) ≤ (k : ℝ) := by exact_mod_cast (by omega : 1 ≤ k)
  have hp : ((k : ℝ) - 1) / 1000000 * (π * Real.sqrt (20000 / π) ^ 2) ≤ 1 := by
    rw [pi_mul_sqrt_20000_sq]
    linarith
  rw [networkConnectivityProbability_one sqrt_20000_div_pi_pos sqrt_20000_div_pi_le h2 hp,
    pi_mul_sqrt_20000_sq]
  have h : ((k : ℝ) - 1) / 1000000 * 20000 = ((k : ℝ) - 1) / 50 := by ring
  rw [h]

theorem g_step : ∀ k : ℕ, 10 ≤ k → k ≤ 19 →
    networkConnectivityProbability (Real.sqrt (20000 / π)) k 1 1000000 20 ≤
      networkConnectivityProbability (Real.sqrt (20000 / π)) (k + 1) 1 1000000 20 := by
  intro k h10 h19
  rw [g_eval k (by omega) (by omega), g_eval (k + 1) (by omega) (by omega)]
  interval_cases k <;> push_cast <;> norm_num

theorem g_mono : ∀ a b : ℕ, 10 ≤ a → a ≤ b → b ≤ 20 →
    networkConnectivityProbability (Real.sqrt (20000 / π)) a 1 1000000 20 ≤
      networkConnectivityProbability (Real.sqrt (20000 / π)) b 1 1000000 20 := by
  intro a b ha hab
  induction b, hab using Nat.le_induction with
  | base => intro _; exact le_refl _
  | succ b hab ih =>
    intro hb
    exact le_trans (ih (by omega)) (g_step b (by omega) (by omega))

/-- Witness for the amended claim C3: a concrete bracketed run at
l = √(20000/π), area = 1e6, m = 1, target 0.9, bracket 10..20, tolerance 1. -/
theorem find_required_nodes_bracketed_spec_witness :
    ∃ res : NodeSearchResult,
      findRequiredNodes (Real.sqrt (20000 / π)) 1000000 1 0.9 10 20 1 4 = some res ∧
      10 ≤ res.required_nodes ∧ res.required_nodes ≤ 20 ∧
      (0.9 : ℝ) ≤ networkConnectivityProbability (Real.sqrt (20000 / π))
        res.required_nodes 1 1000000 20 ∧
      res.achieved_probability = networkConnectivityProbability (Real.sqrt (20000 / π))
        res.required_nodes 1 1000000 20 ∧
      ∀ k : ℕ, 10 ≤ k →
        (0.9 : ℝ) ≤ networkConnectivityProbability (Real.sqrt (20000 / π)) k 1 1000000 20 →
        res.required_nodes ≤ k + 1 :=
  find_required_nodes_bracketed_spec (Real.sqrt (20000 / π)) 1000000 1 0.9 10 20 1 4
    (le_refl 1) (by norm_num) (by norm_num) g_mono
    (by
      rw [g_eval 10 (by norm_num) (by norm_num)]
      push_cast
      norm_num)
    (by
      rw [g_eval 20 (by norm_num) (by norm_num)]
      push_cast
      norm_num)

end UVNet
